import Mathlib

/-!
Shallow embedding of the GSM download firmware core (`src/gsm.cpp`):
the AT transaction primitive `sendAT`, the fixed-duration drain
`waitForResponse`, the attach sequence `connectNetwork`, the bring-online
policy `gsm_setup`, and the download pipeline `downloadAndVerify` with its
size-wait parser, CONNECT wait and clamped streaming loop.

Time is discrete: each busy-poll iteration consumes one tick of the
millisecond clock.  The inbound serial channel is modelled as a stream of
per-tick arrivals; storage is a `List Nat` of bytes (an absent file is
`none`).
-/

namespace GsmDl

/-- `#define CHUNK_SIZE 4096` in gsm.cpp. -/
def CHUNK_SIZE : Nat := 4096

/-- `const unsigned long INACTIVITY_TIMEOUT = 60000;` in `downloadAndVerify`. -/
def INACTIVITY_TIMEOUT : Nat := 60000

/-! ## AT transaction primitive (`sendAT`, gsm.cpp lines 284-295)

`sendAT` writes the command (with line terminator, via `println`) when the
command is non-empty, then busy-polls: at each tick, if a byte is available
it is appended to the accumulated response and the response is checked for
the expected token as a substring.  The loop runs while
`millis() - start < timeout`, i.e. for ticks `0, …, timeout-1`. -/

/-- The byte the channel delivers at tick `t` (`CellUART.read`), if any
(`CellUART.available()`). -/
def ByteStream : Type := Nat → Option Char

/-- Arduino `String::indexOf(pat) != -1`: whether `pat` occurs as a
contiguous substring, by scanning every suffix. -/
def containsSub (pat : List Char) : List Char → Bool
  | [] => pat.isPrefixOf []
  | c :: rest => pat.isPrefixOf (c :: rest) || containsSub pat rest

/-- The poll loop of `sendAT`: at tick `t`, with accumulated response `resp`
and `rem` ticks remaining before the deadline. -/
def sendAT_go (expected : List Char) (stream : ByteStream) :
    Nat → List Char → Nat → Bool
  | _, _, 0 => false
  | t, resp, rem + 1 =>
    match stream t with
    | some c =>
      let resp' := resp ++ [c]
      if containsSub expected resp' then true
      else sendAT_go expected stream (t + 1) resp' rem
    | none => sendAT_go expected stream (t + 1) resp rem

/-- `sendAT(cmd, expected, timeout)`: first component is what was written to
the transport (`CellUART.println(cmd)` iff `cmd.length()` is non-zero),
second is the Boolean result of the token wait. -/
def sendAT (cmd expected : List Char) (stream : ByteStream) (timeout : Nat) :
    Option (List Char) × Bool :=
  (if cmd.length ≠ 0 then some (cmd ++ ['\r', '\n']) else none,
   sendAT_go expected stream 0 [] timeout)

/-- All bytes the channel delivers strictly before tick `k`. -/
def collected (stream : ByteStream) (k : Nat) : List Char :=
  (List.range k).filterMap stream

/-! ## Fixed-duration drain (`waitForResponse`, gsm.cpp lines 297-304)

Drains every available byte for a fixed duration and returns the
accumulated string; no success condition. -/

/-- `waitForResponse(timeout)`: the accumulated bytes of the first
`timeout` ticks. -/
def waitForResponse (stream : ByteStream) (timeout : Nat) : List Char :=
  collected stream timeout

/-! ## Bring-online policy (`gsm_setup`, gsm.cpp lines 56-72) and attach
sequence (`connectNetwork`, lines 256-264) -/

/-- Outcome of each AT transaction, keyed by the command text, as a stub
modem would answer it. -/
def AtStub : Type := List Char → Bool

def cmdATE0 : List Char := "ATE0".toList
def cmdCPIN : List Char := "AT+CPIN?".toList
def cmdQIDEACT : List Char := "AT+QIDEACT=1".toList
def cmdQICSGP : List Char := "AT+QICSGP=1,1,\"airtelgprs.com\",\"\",\"\",1".toList
def cmdQIACT : List Char := "AT+QIACT=1".toList

/-- `connectNetwork()`: the five AT transactions in source order; the results
of `ATE0` and `AT+QIDEACT=1` are discarded, the other three short-circuit
the sequence on failure.  Returns the Boolean result together with the list
of commands actually issued, in order. -/
def connectNetwork (stub : AtStub) : Bool × List (List Char) :=
  let _r1 := stub cmdATE0
  let r2 := stub cmdCPIN
  if !r2 then (false, [cmdATE0, cmdCPIN])
  else
    let _r3 := stub cmdQIDEACT
    let r4 := stub cmdQICSGP
    if !r4 then (false, [cmdATE0, cmdCPIN, cmdQIDEACT, cmdQICSGP])
    else
      let r5 := stub cmdQIACT
      if !r5 then (false, [cmdATE0, cmdCPIN, cmdQIDEACT, cmdQICSGP, cmdQIACT])
      else (true, [cmdATE0, cmdCPIN, cmdQIDEACT, cmdQICSGP, cmdQIACT])

/-- The retry loop of `gsm_setup` (`for(int i=0;i<3;i++)`): `att i` is the
result of the `i`-th `connectNetwork()` attempt; `pcs` counts
`powerCycleModem()` invocations so far and `atts` attach attempts so far.
Returns (result, total power cycles, total attach attempts). -/
def gsm_go (att : Nat → Bool) : Nat → Nat → Nat → Nat → Bool × Nat × Nat
  | _, pcs, atts, 0 => (false, pcs, atts)
  | i, pcs, atts, rem + 1 =>
    if att i then (true, pcs, atts + 1)
    else gsm_go att (i + 1) (pcs + 1) (atts + 1) rem

/-- `gsm_setup()`: one initial `powerCycleModem()`, then up to three
`connectNetwork()` attempts, a further `powerCycleModem()` after each
failed attempt. -/
def gsm_setup (att : Nat → Bool) : Bool × Nat × Nat :=
  gsm_go att 0 1 0 3

/-! ## Size-line parsing (`downloadAndVerify`, gsm.cpp lines 105-131)

`line.substring(line.lastIndexOf(',') + 1).toInt()`: the text after the
last comma (the whole line when there is no comma, since
`lastIndexOf` returns `-1`), converted by `atol`. -/

/-- `line.substring(line.lastIndexOf(',') + 1)`. -/
def afterLastComma : List Char → List Char
  | [] => []
  | c :: rest =>
    if rest.contains ',' then afterLastComma rest
    else if c == ',' then rest
    else c :: rest

/-- C `isspace`, the whitespace skipped by `atol`. -/
def isSpaceC (c : Char) : Bool :=
  c == ' ' || c == '\t' || c == '\n' || c == Char.ofNat 11 || c == Char.ofNat 12 || c == '\r'

/-- The digit-accumulation loop of `atol`: consume decimal digits, stop at
the first non-digit. -/
def digitsVal : List Char → Nat → Nat
  | [], acc => acc
  | c :: rest, acc =>
    if c.isDigit then digitsVal rest (acc * 10 + (c.toNat - 48)) else acc

/-- Arduino `String::toInt` = C `atol`: skip whitespace, optional sign,
then decimal digits; `0` when no digits follow. -/
def atol (l : List Char) : Int :=
  match l.dropWhile isSpaceC with
  | '-' :: rest => -(digitsVal rest 0 : Int)
  | '+' :: rest => (digitsVal rest 0 : Int)
  | rest => (digitsVal rest 0 : Int)

def succPat : List Char := "+QHTTPGET: 0,200".toList
def getPre : List Char := "+QHTTPGET: ".toList

/-- The size-wait loop over the lines that arrive within the 80 s window
(gsm.cpp lines 112-126): `some (some n)` — a success line gave declared
size `n` (loop `break`); `some none` — another `+QHTTPGET: `-prefixed line
caused the hard-error `return`; `none` — the window closed with no
status line (`getSizeSuccess` stays false). -/
def sizeWait : List (List Char) → Option (Option Int)
  | [] => none
  | l :: rest =>
    if succPat.isPrefixOf l then some (some (atol (afterLastComma l)))
    else if getPre.isPrefixOf l && !(succPat.isPrefixOf l) then some none
    else sizeWait rest

/-- The CONNECT-wait loop over the lines of the 10 s window
(gsm.cpp lines 150-158): true iff some line contains "CONNECT". -/
def connectWait : List (List Char) → Bool
  | [] => false
  | l :: rest => if containsSub "CONNECT".toList l then true else connectWait rest

/-! ## The binary read loop (`downloadAndVerify`, gsm.cpp lines 166-205)

State of one streaming transfer.  `t` is the clock (each `while` iteration
consumes one tick); `buffer` the modem-side bytes currently available in
the UART RX buffer; `readLog` every byte taken off the transport so far;
`fileData` the bytes actually persisted by `file.write` (whose result the
source discards, so a short write is invisible to the loop);
`writeIdx` counts `file.write` calls. -/

structure StreamState where
  t : Nat
  buffer : List Nat
  bytesDownloaded : Nat
  fileData : List Nat
  readLog : List Nat
  lastAct : Nat
  writeIdx : Nat
  timedOut : Bool
  deriving Repr, DecidableEq

/-- The per-tick arrival schedule of the transport and the per-call
persistence capacity of `file.write` (the `n`-th write of `len` bytes
persists `min len (wcap n)`; the source never checks this). -/
def Arrivals : Type := Nat → List Nat
def WriteCap : Type := Nat → Nat

/-- The clamped read amount of one iteration (gsm.cpp lines 185-190):
`toRead = min(CHUNK_SIZE, available)`, then capped so that
`bytesDownloaded + toRead` never exceeds the declared size. -/
def readAmount (fs bytes avail : Nat) : Nat :=
  let toRead0 := min CHUNK_SIZE avail
  if fs < bytes + toRead0 then fs - bytes else toRead0

/-- The `if (CellUART.available())` body of one iteration: the bytes of
tick `s.t` join the RX buffer; if it is non-empty, `readAmount` bytes are
taken off it in order, `file.write` persists up to the write capacity of
them (its result is discarded by the source), and the byte counter and
`lastAct` advance. -/
def readPhase (arr : Arrivals) (wcap : WriteCap) (fs : Nat) (s : StreamState) :
    StreamState :=
  let buf := s.buffer ++ arr s.t
  if buf.length ≠ 0 then
    let len := readAmount fs s.bytesDownloaded buf.length
    let chunk := buf.take len
    if 0 < len then
      { t := s.t, buffer := buf.drop len,
        bytesDownloaded := s.bytesDownloaded + len,
        fileData := s.fileData ++ chunk.take (min len (wcap s.writeIdx)),
        readLog := s.readLog ++ chunk,
        lastAct := s.t, writeIdx := s.writeIdx + 1, timedOut := s.timedOut }
    else { s with buffer := buf }
  else { s with buffer := buf }

/-- One iteration of the `while (bytesDownloaded < fileSize)` body: the
read phase, then the inactivity check
(`millis() - lastAct > INACTIVITY_TIMEOUT` breaks the loop), then the
clock ticks. -/
def streamStep (arr : Arrivals) (wcap : WriteCap) (fs : Nat) (s : StreamState) :
    StreamState :=
  let s1 := readPhase arr wcap fs s
  let s2 := if INACTIVITY_TIMEOUT < s1.t - s1.lastAct
            then { s1 with timedOut := true } else s1
  { s2 with t := s2.t + 1 }

/-- The streaming loop: while `bytesDownloaded < fileSize` and the
inactivity `break` has not fired, run the next iteration.  `fuel` bounds
the number of iterations unwound; `streamLoop_terminal` below shows
`streamFuel fs` iterations always suffice to reach a genuine exit. -/
def streamLoop (arr : Arrivals) (wcap : WriteCap) (fs : Nat) :
    Nat → StreamState → StreamState
  | 0, s => s
  | fuel + 1, s =>
    if s.bytesDownloaded < fs then
      let s' := streamStep arr wcap fs s
      if s'.timedOut then s' else streamLoop arr wcap fs fuel s'
    else s

/-- Loop-entry state: clock 0, empty RX buffer, `bytesDownloaded = 0`,
freshly truncated file, `lastAct = millis()` at entry. -/
def initStream : StreamState :=
  ⟨0, [], 0, [], [], 0, 0, false⟩

/-- An iteration count sufficient for the streaming loop to exit by its own
conditions: each iteration either makes byte progress (at most `fs` times)
or advances the inactivity clock (at most `INACTIVITY_TIMEOUT + 1` ticks
between progress events). -/
def streamFuel (fs : Nat) : Nat := (fs + 1) * (INACTIVITY_TIMEOUT + 2)

/-- Every byte the transport has delivered strictly before tick `k`, in
order. -/
def deliveredUpTo (arr : Arrivals) (k : Nat) : List Nat :=
  (List.range k).flatMap arr

/-! ## `downloadAndVerify` (gsm.cpp lines 84-218) -/

inductive DlOutcome where
  | urlFail | getError | sizeFail | openFail | noConnect | mallocFail
  | complete | incomplete
  deriving Repr, DecidableEq

/-- Observable result of one `downloadAndVerify` run. `fileAfter` is the
artifact at `FILE_PATH` when the function returns (`none` = absent);
`created` whether this attempt opened (hence created/truncated) the file;
`handleClosed` whether no storage handle is left open at return;
`checksum` whether `calculateStorageChecksum()` was invoked. -/
structure DlResult where
  outcome : DlOutcome
  fileAfter : Option (List Nat)
  created : Bool
  handleClosed : Bool
  checksum : Bool
  bytesDownloaded : Nat
  declaredSize : Int
  deriving Repr, DecidableEq

/-- Inputs of one run: the drained reply of the URL step, the lines of the
size-wait window, the pre-existing artifact, whether `SPIFFS.open`
succeeds, the lines of the CONNECT window, whether `malloc` succeeds, and
the streaming transport/storage behaviour. -/
structure DlInput where
  urlResp : List Char
  sizeLines : List (List Char)
  initialFile : Option (List Nat)
  openOk : Bool
  connectLines : List (List Char)
  mallocOk : Bool
  arrivals : Arrivals
  writeCap : WriteCap

/-- `downloadAndVerify(url)`: the straight-line control flow of
gsm.cpp lines 84-218.  Each early `return` is one abort constructor; the
file-system effects (`SPIFFS.remove`, `SPIFFS.open` truncation, writes,
final `remove` of an incomplete artifact) are tracked in `fileAfter`. -/
def downloadAndVerify (inp : DlInput) : DlResult :=
  -- line 96: URL CONNECT check on the drained response
  if !(containsSub "CONNECT".toList inp.urlResp) then
    ⟨.urlFail, inp.initialFile, false, true, false, 0, -1⟩
  else
    match sizeWait inp.sizeLines with
    | some none =>  -- line 123: hard +QHTTPGET error line
      ⟨.getError, inp.initialFile, false, true, false, 0, -1⟩
    | none =>       -- line 128 with getSizeSuccess = false
      ⟨.sizeFail, inp.initialFile, false, true, false, 0, -1⟩
    | some (some sz) =>
      if sz ≤ 0 then  -- line 128 with fileSize <= 0
        ⟨.sizeFail, inp.initialFile, false, true, false, 0, sz⟩
      else
        -- lines 134-137: remove any existing artifact, then open for write
        if !inp.openOk then
          ⟨.openFail, none, false, true, false, 0, sz⟩
        else if !(connectWait inp.connectLines) then
          -- lines 160-163: no CONNECT: close handle, return (no remove)
          ⟨.noConnect, some [], true, true, false, 0, sz⟩
        else if !inp.mallocOk then
          -- lines 171-174: malloc failed: close handle, return (no remove)
          ⟨.mallocFail, some [], true, true, false, 0, sz⟩
        else
          let fs := sz.toNat
          let s := streamLoop inp.arrivals inp.writeCap fs (streamFuel fs) initStream
          -- line 207: file.close() on every loop exit
          if s.bytesDownloaded = fs then
            -- lines 210-212: success path, checksum invoked, file kept
            ⟨.complete, some s.fileData, true, true, true, s.bytesDownloaded, sz⟩
          else
            -- lines 213-216: incomplete: artifact removed
            ⟨.incomplete, none, true, true, false, s.bytesDownloaded, sz⟩

/-! ## Lemmas about the streaming loop -/

lemma readAmount_eq (fs bytes avail : Nat) :
    readAmount fs bytes avail = min (min CHUNK_SIZE avail) (fs - bytes) := by
  simp only [readAmount]
  split <;> omega

/-- Case analysis for one read phase: either nothing is read (the clamped
amount is zero, in particular whenever the RX buffer is empty), or a
positive clamped amount is taken off the front of the buffer. -/
lemma readPhase_spec (arr : Arrivals) (wcap : WriteCap) (fs : Nat) (s : StreamState) :
    (readAmount fs s.bytesDownloaded (s.buffer ++ arr s.t).length = 0 ∧
      readPhase arr wcap fs s = { s with buffer := s.buffer ++ arr s.t }) ∨
    (0 < readAmount fs s.bytesDownloaded (s.buffer ++ arr s.t).length ∧
      readPhase arr wcap fs s =
        { t := s.t,
          buffer := (s.buffer ++ arr s.t).drop
            (readAmount fs s.bytesDownloaded (s.buffer ++ arr s.t).length),
          bytesDownloaded := s.bytesDownloaded +
            readAmount fs s.bytesDownloaded (s.buffer ++ arr s.t).length,
          fileData := s.fileData ++
            ((s.buffer ++ arr s.t).take
              (readAmount fs s.bytesDownloaded (s.buffer ++ arr s.t).length)).take
              (min (readAmount fs s.bytesDownloaded (s.buffer ++ arr s.t).length)
                (wcap s.writeIdx)),
          readLog := s.readLog ++
            (s.buffer ++ arr s.t).take
              (readAmount fs s.bytesDownloaded (s.buffer ++ arr s.t).length),
          lastAct := s.t, writeIdx := s.writeIdx + 1, timedOut := s.timedOut }) := by
  simp only [readPhase]
  split
  · split
    · right; exact ⟨by omega, rfl⟩
    · left; exact ⟨by omega, rfl⟩
  · left
    refine ⟨?_, rfl⟩
    have h0 : (s.buffer ++ arr s.t).length = 0 := by omega
    simp [readAmount_eq, h0]

lemma readPhase_t (arr : Arrivals) (wcap : WriteCap) (fs : Nat) (s : StreamState) :
    (readPhase arr wcap fs s).t = s.t := by
  rcases readPhase_spec arr wcap fs s with ⟨_, he⟩ | ⟨_, he⟩ <;> rw [he]

lemma readPhase_timedOut (arr : Arrivals) (wcap : WriteCap) (fs : Nat) (s : StreamState) :
    (readPhase arr wcap fs s).timedOut = s.timedOut := by
  rcases readPhase_spec arr wcap fs s with ⟨_, he⟩ | ⟨_, he⟩ <;> rw [he]

lemma readPhase_bytes_le (arr : Arrivals) (wcap : WriteCap) (fs : Nat) (s : StreamState)
    (h : s.bytesDownloaded ≤ fs) : (readPhase arr wcap fs s).bytesDownloaded ≤ fs := by
  rcases readPhase_spec arr wcap fs s with ⟨_, he⟩ | ⟨hp, he⟩ <;> rw [he]
  · exact h
  · have := readAmount_eq fs s.bytesDownloaded (s.buffer ++ arr s.t).length
    simp only []
    omega

lemma streamStep_bytes (arr : Arrivals) (wcap : WriteCap) (fs : Nat) (s : StreamState) :
    (streamStep arr wcap fs s).bytesDownloaded = (readPhase arr wcap fs s).bytesDownloaded := by
  simp only [streamStep]
  split <;> rfl

lemma streamStep_bytes_le (arr : Arrivals) (wcap : WriteCap) (fs : Nat) (s : StreamState)
    (h : s.bytesDownloaded ≤ fs) : (streamStep arr wcap fs s).bytesDownloaded ≤ fs := by
  rw [streamStep_bytes]
  exact readPhase_bytes_le arr wcap fs s h

/-- The byte counter never exceeds the declared size at any iteration of
the loop. -/
lemma streamLoop_bytes_le (arr : Arrivals) (wcap : WriteCap) (fs : Nat) :
    ∀ fuel s, s.bytesDownloaded ≤ fs →
      (streamLoop arr wcap fs fuel s).bytesDownloaded ≤ fs := by
  intro fuel
  induction fuel with
  | zero => intro s h; exact h
  | succ n ih =>
    intro s h
    simp only [streamLoop]
    split
    · split
      · exact streamStep_bytes_le arr wcap fs s h
      · exact ih _ (streamStep_bytes_le arr wcap fs s h)
    · exact h

lemma streamStep_spec (arr : Arrivals) (wcap : WriteCap) (fs : Nat) (s : StreamState) :
    streamStep arr wcap fs s =
      (if INACTIVITY_TIMEOUT < s.t - (readPhase arr wcap fs s).lastAct
       then { readPhase arr wcap fs s with timedOut := true, t := s.t + 1 }
       else { readPhase arr wcap fs s with t := s.t + 1 }) := by
  simp only [streamStep, readPhase_t]
  split <;> simp [readPhase_t]

/-- Running states are well-formed: `lastAct` never exceeds the clock, the
byte counter never exceeds the declared size, and while the inactivity
break has not fired the silent gap is at most one tick past the window. -/
def WFS (fs : Nat) (s : StreamState) : Prop :=
  s.lastAct ≤ s.t ∧ s.bytesDownloaded ≤ fs ∧
    (s.timedOut = false → s.t - s.lastAct ≤ INACTIVITY_TIMEOUT + 1)

/-- Termination measure: every non-exiting iteration strictly decreases it. -/
def measureS (fs : Nat) (s : StreamState) : Nat :=
  (fs - s.bytesDownloaded) * (INACTIVITY_TIMEOUT + 2) +
    (INACTIVITY_TIMEOUT + 2 - (s.t - s.lastAct))

/-- Field-level view of one read phase: either nothing changes except the
arrived bytes joining the buffer, or a positive clamped amount is read,
the byte counter advances by it, and `lastAct` is refreshed to the current
tick. -/
lemma readPhase_fields (arr : Arrivals) (wcap : WriteCap) (fs : Nat) (s : StreamState) :
    ((readPhase arr wcap fs s).t = s.t ∧
      (readPhase arr wcap fs s).lastAct = s.lastAct ∧
      (readPhase arr wcap fs s).bytesDownloaded = s.bytesDownloaded ∧
      (readPhase arr wcap fs s).timedOut = s.timedOut) ∨
    ((readPhase arr wcap fs s).t = s.t ∧
      (readPhase arr wcap fs s).lastAct = s.t ∧
      (readPhase arr wcap fs s).bytesDownloaded = s.bytesDownloaded +
        readAmount fs s.bytesDownloaded (s.buffer ++ arr s.t).length ∧
      0 < readAmount fs s.bytesDownloaded (s.buffer ++ arr s.t).length ∧
      (readPhase arr wcap fs s).timedOut = s.timedOut) := by
  rcases readPhase_spec arr wcap fs s with ⟨hz, he⟩ | ⟨hp, he⟩
  · left; rw [he]; exact ⟨rfl, rfl, rfl, rfl⟩
  · right; rw [he]; exact ⟨rfl, rfl, rfl, hp, rfl⟩

lemma streamStep_t (arr : Arrivals) (wcap : WriteCap) (fs : Nat) (s : StreamState) :
    (streamStep arr wcap fs s).t = s.t + 1 := by
  rw [streamStep_spec]; split <;> rfl

lemma streamStep_lastAct (arr : Arrivals) (wcap : WriteCap) (fs : Nat) (s : StreamState) :
    (streamStep arr wcap fs s).lastAct = (readPhase arr wcap fs s).lastAct := by
  rw [streamStep_spec]; split <;> rfl

lemma streamStep_timedOut (arr : Arrivals) (wcap : WriteCap) (fs : Nat) (s : StreamState) :
    (streamStep arr wcap fs s).timedOut =
      (if INACTIVITY_TIMEOUT < s.t - (readPhase arr wcap fs s).lastAct
       then true else (readPhase arr wcap fs s).timedOut) := by
  rw [streamStep_spec]
  split <;> rfl

lemma streamStep_wf (arr : Arrivals) (wcap : WriteCap) (fs : Nat) (s : StreamState)
    (h : WFS fs s) : WFS fs (streamStep arr wcap fs s) := by
  obtain ⟨hla, hb, hd⟩ := h
  have hK : INACTIVITY_TIMEOUT = 60000 := rfl
  have hra := readAmount_eq fs s.bytesDownloaded (s.buffer ++ arr s.t).length
  have ht' := streamStep_t arr wcap fs s
  have hl' := streamStep_lastAct arr wcap fs s
  have htd := streamStep_timedOut arr wcap fs s
  have hbe := streamStep_bytes arr wcap fs s
  rcases readPhase_fields arr wcap fs s with ⟨_, h2, h3, _⟩ | ⟨_, h2, h3, h4, _⟩
  · refine ⟨by omega, by omega, ?_⟩
    intro htf
    rw [htd, h2] at htf
    by_cases hc : INACTIVITY_TIMEOUT < s.t - s.lastAct
    · rw [if_pos hc] at htf; exact absurd htf (by simp)
    · rw [hK] at hc ⊢; omega
  · refine ⟨by omega, by omega, ?_⟩
    intro _
    rw [hK]; omega

lemma streamStep_measure (arr : Arrivals) (wcap : WriteCap) (fs : Nat) (s : StreamState)
    (h : WFS fs s) (ht : s.timedOut = false) (hlt : s.bytesDownloaded < fs)
    (hnb : (streamStep arr wcap fs s).timedOut = false) :
    measureS fs (streamStep arr wcap fs s) < measureS fs s := by
  obtain ⟨hla, hb, hd⟩ := h
  have hd' := hd ht
  have hK : INACTIVITY_TIMEOUT = 60000 := rfl
  have hra := readAmount_eq fs s.bytesDownloaded (s.buffer ++ arr s.t).length
  have ht' := streamStep_t arr wcap fs s
  have hl' := streamStep_lastAct arr wcap fs s
  have htd := streamStep_timedOut arr wcap fs s
  have hbe := streamStep_bytes arr wcap fs s
  simp only [measureS, hK]
  rw [ht', hl', hbe]
  rw [hK] at htd hd'
  rcases readPhase_fields arr wcap fs s with ⟨_, h2, h3, _⟩ | ⟨_, h2, h3, h4, _⟩
  · rw [h2, h3]
    rw [h2] at htd
    by_cases hc : (60000 : Nat) < s.t - s.lastAct
    · rw [if_pos hc] at htd
      exact absurd (htd.symm.trans hnb) (by simp)
    · omega
  · rw [h2, h3]
    omega

lemma streamLoop_terminal_aux (arr : Arrivals) (wcap : WriteCap) (fs : Nat) :
    ∀ fuel s, WFS fs s → s.timedOut = false → measureS fs s ≤ fuel →
      fs ≤ (streamLoop arr wcap fs fuel s).bytesDownloaded ∨
        (streamLoop arr wcap fs fuel s).timedOut = true := by
  intro fuel
  induction fuel with
  | zero =>
    intro s hwf ht hm
    exfalso
    obtain ⟨hla, hb, hd⟩ := hwf
    have h2 := hd ht
    have hK : INACTIVITY_TIMEOUT = 60000 := rfl
    simp only [measureS, hK] at hm
    rw [hK] at h2
    omega
  | succ n ih =>
    intro s hwf ht hm
    simp only [streamLoop]
    split
    · split
      · right; assumption
      · rename_i hlt hnb
        have hnb' : (streamStep arr wcap fs s).timedOut = false := by
          simpa using hnb
        refine ih _ (streamStep_wf arr wcap fs s hwf) hnb' ?_
        have := streamStep_measure arr wcap fs s hwf ht hlt hnb'
        omega
    · left; omega

/-- With `streamFuel` iterations of fuel, the streaming loop always exits
by one of its own two conditions: declared size reached, or inactivity
break. -/
lemma streamLoop_terminal (arr : Arrivals) (wcap : WriteCap) (fs : Nat) :
    fs ≤ (streamLoop arr wcap fs (streamFuel fs) initStream).bytesDownloaded ∨
      (streamLoop arr wcap fs (streamFuel fs) initStream).timedOut = true := by
  refine streamLoop_terminal_aux arr wcap fs (streamFuel fs) initStream ?_ rfl ?_
  · exact ⟨Nat.le_refl 0, Nat.zero_le fs, fun _ => by simp [initStream]⟩
  · have hK : INACTIVITY_TIMEOUT = 60000 := rfl
    simp only [measureS, initStream, streamFuel, hK]
    omega

/-! ## Data-flow invariants of the streaming loop -/

lemma deliveredUpTo_succ (arr : Arrivals) (k : Nat) :
    deliveredUpTo arr (k + 1) = deliveredUpTo arr k ++ arr k := by
  simp [deliveredUpTo, List.range_succ]

/-- Every `file.write` during streaming persists everything handed to it:
each call's capacity covers a full chunk. -/
def FullW (wcap : WriteCap) : Prop := ∀ n, CHUNK_SIZE ≤ wcap n

/-- The bytes taken off the transport so far, followed by the bytes still
in the RX buffer, are exactly the bytes the transport has delivered; the
byte counter counts the former. -/
def Dinv (arr : Arrivals) (s : StreamState) : Prop :=
  s.readLog ++ s.buffer = deliveredUpTo arr s.t ∧
    s.readLog.length = s.bytesDownloaded

lemma streamStep_dinv (arr : Arrivals) (wcap : WriteCap) (fs : Nat) (s : StreamState)
    (h : Dinv arr s) : Dinv arr (streamStep arr wcap fs s) := by
  obtain ⟨h1, h2⟩ := h
  have hstep := streamStep_spec arr wcap fs s
  have hdel : s.readLog ++ (s.buffer ++ arr s.t) = deliveredUpTo arr (s.t + 1) := by
    rw [deliveredUpTo_succ, ← h1, List.append_assoc]
  have hra := readAmount_eq fs s.bytesDownloaded (s.buffer ++ arr s.t).length
  rcases readPhase_spec arr wcap fs s with ⟨hz, he⟩ | ⟨hp, he⟩ <;>
      rw [he] at hstep <;> rw [Dinv, hstep] <;> split <;>
      refine ⟨?_, ?_⟩ <;> dsimp only
  · exact hdel
  · exact h2
  · exact hdel
  · exact h2
  all_goals {
    first
    | (rw [List.append_assoc, List.take_append_drop]; exact hdel)
    | (rw [List.length_append, List.length_take]
       have hle : readAmount fs s.bytesDownloaded (s.buffer ++ arr s.t).length ≤
           (s.buffer ++ arr s.t).length := by omega
       omega) }

/-- When every write persists in full, the artifact contents equal the
read log. -/
lemma streamStep_finv (arr : Arrivals) (wcap : WriteCap) (fs : Nat) (s : StreamState)
    (hw : FullW wcap) (h : s.fileData = s.readLog) :
    (streamStep arr wcap fs s).fileData = (streamStep arr wcap fs s).readLog := by
  have hstep := streamStep_spec arr wcap fs s
  have hra := readAmount_eq fs s.bytesDownloaded (s.buffer ++ arr s.t).length
  rcases readPhase_spec arr wcap fs s with ⟨hz, he⟩ | ⟨hp, he⟩ <;>
      rw [he] at hstep <;> rw [hstep] <;> split <;> dsimp only
  · exact h
  · exact h
  all_goals {
    have hc : readAmount fs s.bytesDownloaded (s.buffer ++ arr s.t).length ⊓
        wcap s.writeIdx = readAmount fs s.bytesDownloaded (s.buffer ++ arr s.t).length := by
      have := hw s.writeIdx
      omega
    rw [hc, List.take_take, Nat.min_self, h] }

lemma streamLoop_inv (arr : Arrivals) (wcap : WriteCap) (fs : Nat) :
    ∀ fuel s, Dinv arr s → (FullW wcap → s.fileData = s.readLog) →
      Dinv arr (streamLoop arr wcap fs fuel s) ∧
        (FullW wcap →
          (streamLoop arr wcap fs fuel s).fileData =
            (streamLoop arr wcap fs fuel s).readLog) := by
  intro fuel
  induction fuel with
  | zero => intro s h1 h2; exact ⟨h1, h2⟩
  | succ n ih =>
    intro s h1 h2
    simp only [streamLoop]
    split
    · split
      · exact ⟨streamStep_dinv arr wcap fs s h1,
          fun hw => streamStep_finv arr wcap fs s hw (h2 hw)⟩
      · exact ih _ (streamStep_dinv arr wcap fs s h1)
          (fun hw => streamStep_finv arr wcap fs s hw (h2 hw))
    · exact ⟨h1, h2⟩

/-- The artifact built from `initStream` under full writes: its contents
are precisely the first `bytesDownloaded` bytes the transport delivered. -/
lemma streamLoop_fileData (arr : Arrivals) (wcap : WriteCap) (fs : Nat) (fuel : Nat)
    (hw : FullW wcap) :
    (streamLoop arr wcap fs fuel initStream).fileData =
      (deliveredUpTo arr (streamLoop arr wcap fs fuel initStream).t).take
        (streamLoop arr wcap fs fuel initStream).bytesDownloaded ∧
      (streamLoop arr wcap fs fuel initStream).fileData.length =
        (streamLoop arr wcap fs fuel initStream).bytesDownloaded := by
  have h0 : Dinv arr initStream := by
    constructor <;> simp [initStream, deliveredUpTo]
  obtain ⟨⟨h1, h2⟩, h3⟩ := streamLoop_inv arr wcap fs fuel initStream h0
    (fun _ => rfl)
  have h4 := h3 hw
  have hpre : (streamLoop arr wcap fs fuel initStream).readLog <+:
      deliveredUpTo arr (streamLoop arr wcap fs fuel initStream).t :=
    ⟨(streamLoop arr wcap fs fuel initStream).buffer, h1⟩
  rw [h4, h2.symm]
  exact ⟨by rw [← List.prefix_iff_eq_take.mp hpre], rfl⟩

/-! ## Lemmas about the token wait of `sendAT` -/

lemma containsSub_iff (pat : List Char) :
    ∀ s, containsSub pat s = true ↔ pat <:+: s := by
  intro s
  induction s with
  | nil =>
    rw [containsSub, List.isPrefixOf_iff_prefix, List.prefix_nil, List.infix_nil]
  | cons c rest ih =>
    rw [containsSub, Bool.or_eq_true, List.isPrefixOf_iff_prefix, ih,
      List.infix_cons_iff]

/-- The bytes delivered at ticks `t, t+1, …, t+n-1`. -/
def collectedSeg (stream : ByteStream) (t n : Nat) : List Char :=
  (List.range n).filterMap (fun i => stream (t + i))

lemma collectedSeg_zero (stream : ByteStream) (t : Nat) :
    collectedSeg stream t 0 = [] := rfl

lemma collectedSeg_succ_front (stream : ByteStream) (t n : Nat) :
    collectedSeg stream t (n + 1) =
      (stream t).toList ++ collectedSeg stream (t + 1) n := by
  rw [collectedSeg, List.range_succ_eq_map, List.filterMap_cons]
  have hmap : (List.map Nat.succ (List.range n)).filterMap (fun i => stream (t + i)) =
      (List.range n).filterMap (fun i => stream (t + 1 + i)) := by
    rw [List.filterMap_map]
    apply List.filterMap_congr
    intro x _
    simp [Function.comp]
    congr 1
    omega
  cases hs : stream (t + 0) with
  | none =>
    have : stream t = none := by rw [← hs]; congr 1
    rw [this, hmap, collectedSeg, Option.toList, List.nil_append]
  | some c =>
    have : stream t = some c := by rw [← hs]; congr 1
    rw [this, hmap, collectedSeg, Option.toList, List.cons_append, List.nil_append]

lemma collected_eq_seg (stream : ByteStream) (n : Nat) :
    collected stream n = collectedSeg stream 0 n := by
  rw [collected, collectedSeg]
  apply List.filterMap_congr
  intro x _
  rw [Nat.zero_add]

lemma collected_succ (stream : ByteStream) (n : Nat) :
    collected stream (n + 1) = collected stream n ++ (stream n).toList := by
  rw [collected, collected, List.range_succ, List.filterMap_append,
    List.filterMap_cons]
  cases stream n <;> simp [Option.toList]

lemma collected_mono (stream : ByteStream) {m n : Nat} (h : m ≤ n) :
    collected stream m <+: collected stream n := by
  induction n with
  | zero =>
    have : m = 0 := by omega
    rw [this]
  | succ k ih =>
    rcases Nat.lt_or_ge m (k + 1) with hlt | hge
    · have := ih (by omega)
      rw [collected_succ]
      exact this.trans (List.prefix_append _ _)
    · have : m = k + 1 := by omega
      rw [this]

/-- Characterization of the poll loop: it answers true precisely when some
tick in the window delivers a byte whose arrival completes an occurrence
of the expected token in the accumulated response. -/
lemma sendAT_go_iff (expected : List Char) (stream : ByteStream) :
    ∀ rem t resp, sendAT_go expected stream t resp rem = true ↔
      ∃ k, k < rem ∧ (stream (t + k)).isSome ∧
        expected <:+: (resp ++ collectedSeg stream t (k + 1)) := by
  intro rem
  induction rem with
  | zero =>
    intro t resp
    simp [sendAT_go]
  | succ n ih =>
    intro t resp
    rw [sendAT_go]
    cases hs : stream t with
    | some c =>
      by_cases hf : containsSub expected (resp ++ [c]) = true
      · simp only [hf, if_true]
        constructor
        · intro _
          refine ⟨0, by omega, by rw [Nat.add_zero, hs]; rfl, ?_⟩
          rw [collectedSeg_succ_front, hs, collectedSeg_zero]
          simpa using (containsSub_iff expected _).mp hf
        · intro _; trivial
      · simp only [hf]
        rw [if_neg (by simp [hf]), ih]
        constructor
        · rintro ⟨k, hk, hsome, hinf⟩
          refine ⟨k + 1, by omega, ?_, ?_⟩
          · have : t + (k + 1) = t + 1 + k := by omega
            rw [this]; exact hsome
          · rw [collectedSeg_succ_front, hs]
            simpa [List.append_assoc] using hinf
        · rintro ⟨k, hk, hsome, hinf⟩
          cases k with
          | zero =>
            exfalso
            rw [collectedSeg_succ_front, hs, collectedSeg_zero] at hinf
            exact hf ((containsSub_iff expected _).mpr (by simpa using hinf))
          | succ k' =>
            refine ⟨k', by omega, ?_, ?_⟩
            · have : t + 1 + k' = t + (k' + 1) := by omega
              rw [this]; exact hsome
            · rw [collectedSeg_succ_front, hs] at hinf
              simpa [List.append_assoc] using hinf
    | none =>
      rw [ih]
      constructor
      · rintro ⟨k, hk, hsome, hinf⟩
        refine ⟨k + 1, by omega, ?_, ?_⟩
        · have : t + (k + 1) = t + 1 + k := by omega
          rw [this]; exact hsome
        · rw [collectedSeg_succ_front, hs]
          simpa using hinf
      · rintro ⟨k, hk, hsome, hinf⟩
        cases k with
        | zero =>
          exfalso
          rw [Nat.add_zero, hs] at hsome
          exact absurd hsome (by simp)
        | succ k' =>
          refine ⟨k', by omega, ?_, ?_⟩
          · have : t + 1 + k' = t + (k' + 1) := by omega
            rw [this]; exact hsome
          · rw [collectedSeg_succ_front, hs] at hinf
            simpa using hinf

/-- The token wait succeeds iff the expected (non-empty) token occurs in
the bytes the channel delivers within the timeout window. -/
lemma sendAT_go_top_iff (expected : List Char) (stream : ByteStream)
    (timeout : Nat) (hne : expected ≠ []) :
    sendAT_go expected stream 0 [] timeout = true ↔
      expected <:+: collected stream timeout := by
  rw [sendAT_go_iff]
  constructor
  · rintro ⟨k, hk, _, hinf⟩
    rw [List.nil_append] at hinf
    have hseg : collectedSeg stream 0 (k + 1) = collected stream (k + 1) :=
      (collected_eq_seg stream (k + 1)).symm
    rw [hseg] at hinf
    exact hinf.trans (collected_mono stream (by omega)).isInfix
  · intro hinf
    have hex : ∃ m, expected <:+: collected stream m := ⟨timeout, hinf⟩
    have hfind := Nat.find_spec hex
    have hle : Nat.find hex ≤ timeout := Nat.find_min' hex hinf
    have hne0 : Nat.find hex ≠ 0 := by
      intro h0
      rw [h0] at hfind
      have : expected = [] := by
        rw [← List.infix_nil]
        simpa [collected] using hfind
      exact hne this
    obtain ⟨m', hm'⟩ := Nat.exists_eq_succ_of_ne_zero hne0
    have hmin : ¬ expected <:+: collected stream m' :=
      Nat.find_min hex (by omega)
    cases hs : stream m' with
    | none =>
      exfalso
      apply hmin
      have : collected stream (m' + 1) = collected stream m' := by
        rw [collected_succ, hs]; simp [Option.toList]
      rw [hm', this] at hfind
      exact hfind
    | some c =>
      refine ⟨m', by omega, by rw [Nat.zero_add, hs]; rfl, ?_⟩
      rw [List.nil_append, ← collected_eq_seg]
      rw [hm'] at hfind
      exact hfind

/-! ## Bounded-wait (insensitivity) lemmas: each poll loop reads nothing
past its deadline -/

lemma sendAT_go_window (expected : List Char) (s1 s2 : ByteStream) :
    ∀ rem t resp, (∀ k, k < rem → s1 (t + k) = s2 (t + k)) →
      sendAT_go expected s1 t resp rem = sendAT_go expected s2 t resp rem := by
  intro rem
  induction rem with
  | zero => intro t resp _; rfl
  | succ n ih =>
    intro t resp hag
    have h0 : s1 t = s2 t := by
      have := hag 0 (by omega)
      simpa using this
    rw [sendAT_go, sendAT_go, h0]
    cases s2 t with
    | some c =>
      by_cases hf : containsSub expected (resp ++ [c]) = true
      · simp [hf]
      · simp only [hf, Bool.false_eq_true, if_false]
        exact ih (t + 1) (resp ++ [c]) (fun k hk => by
          have := hag (k + 1) (by omega)
          have he : t + (k + 1) = t + 1 + k := by omega
          rwa [he] at this)
    | none =>
      exact ih (t + 1) resp (fun k hk => by
        have := hag (k + 1) (by omega)
        have he : t + (k + 1) = t + 1 + k := by omega
        rwa [he] at this)

lemma collected_window (s1 s2 : ByteStream) (timeout : Nat)
    (hag : ∀ k, k < timeout → s1 k = s2 k) :
    collected s1 timeout = collected s2 timeout := by
  rw [collected, collected]
  apply List.filterMap_congr
  intro x hx
  exact hag x (List.mem_range.mp hx)

/-! # Claim theorems -/

/-- C1: during the streaming loop, for every declared size `fs > 0`, the
invariant `bytesDownloaded ≤ fs` holds at every iteration (any number of
iterations from loop entry), and each iteration reads at most
`min(chunkCapacity, bytesAvailable, fs - bytesDownloaded)` bytes from the
transport, so the counter never exceeds the declared size even when more
than the remaining count is available in one burst. -/
theorem C1_streaming_clamped (arr : Arrivals) (wcap : WriteCap) (fs fuel : Nat)
    (s : StreamState) (hpos : 0 < fs) (hs : s.bytesDownloaded ≤ fs) :
    (streamLoop arr wcap fs fuel initStream).bytesDownloaded ≤ fs ∧
      (streamStep arr wcap fs s).bytesDownloaded ≤ fs ∧
      (streamStep arr wcap fs s).bytesDownloaded - s.bytesDownloaded ≤
        min CHUNK_SIZE (min (s.buffer ++ arr s.t).length (fs - s.bytesDownloaded)) := by
  refine ⟨streamLoop_bytes_le arr wcap fs fuel initStream (by simp [initStream]),
    streamStep_bytes_le arr wcap fs s hs, ?_⟩
  have hbe := streamStep_bytes arr wcap fs s
  have hra := readAmount_eq fs s.bytesDownloaded (s.buffer ++ arr s.t).length
  rcases readPhase_fields arr wcap fs s with ⟨_, _, h3, _⟩ | ⟨_, _, h3, h4, _⟩ <;> omega

/-- C1 witness: concrete instance with declared size 1. -/
theorem C1_streaming_clamped_witness :
    (0 < 1 ∧ initStream.bytesDownloaded ≤ 1) ∧
      ((streamLoop (fun _ => [9]) (fun _ => CHUNK_SIZE) 1 2 initStream).bytesDownloaded ≤ 1 ∧
        (streamStep (fun _ => [9]) (fun _ => CHUNK_SIZE) 1 initStream).bytesDownloaded ≤ 1 ∧
        (streamStep (fun _ => [9]) (fun _ => CHUNK_SIZE) 1 initStream).bytesDownloaded -
            initStream.bytesDownloaded ≤
          min CHUNK_SIZE
            (min (initStream.buffer ++ (fun _ => [9]) initStream.t).length
              (1 - initStream.bytesDownloaded))) :=
  ⟨⟨by decide, by decide⟩,
    C1_streaming_clamped (fun _ => [9]) (fun _ => CHUNK_SIZE) 1 2 initStream
      (by decide) (by decide)⟩

/-- C5: `gsm_setup` succeeds exactly when one of the (up to three) attach
attempts succeeds; when the first two fail and the third succeeds it
returns success having power-cycled exactly three times and attached
exactly three times; when all fail it returns failure after exactly three
attach attempts, not more. -/
theorem C5_bring_online (att : Nat → Bool) :
    (gsm_setup att).1 = (att 0 || att 1 || att 2) ∧
      (att 0 = false → att 1 = false → att 2 = true →
        gsm_setup att = (true, 3, 3)) ∧
      (att 0 = false → att 1 = false → att 2 = false →
        (gsm_setup att).1 = false ∧ (gsm_setup att).2.2 = 3) ∧
      (gsm_setup att).2.2 ≤ 3 := by
  cases h0 : att 0 <;> cases h1 : att 1 <;> cases h2 : att 2 <;>
    simp [gsm_setup, gsm_go, h0, h1, h2]

/-- C5 witness: attach fails twice then succeeds. -/
theorem C5_bring_online_witness :
    ((fun i => i == 2 : Nat → Bool) 0 = false ∧
        (fun i => i == 2 : Nat → Bool) 1 = false ∧
        (fun i => i == 2 : Nat → Bool) 2 = true) ∧
      gsm_setup (fun i => i == 2) = (true, 3, 3) :=
  ⟨⟨by decide, by decide, by decide⟩,
    (C5_bring_online (fun i => i == 2)).2.1 (by decide) (by decide) (by decide)⟩

/-- C10: when every attach attempt fails, `gsm_setup` performs four power
cycles in total (the initial one plus one after each of the three failed
attempts) before returning failure. -/
theorem C10_power_cycles (att : Nat → Bool) (h : ∀ i, att i = false) :
    gsm_setup att = (false, 4, 3) := by
  simp [gsm_setup, gsm_go, h]

/-- C10 witness: the always-failing attach. -/
theorem C10_power_cycles_witness :
    (∀ i, (fun _ => false : Nat → Bool) i = false) ∧
      gsm_setup (fun _ => false) = (false, 4, 3) :=
  ⟨fun _ => rfl, C10_power_cycles (fun _ => false) (fun _ => rfl)⟩

/-- C7 (amended): `connectNetwork` issues its five AT transactions in the
fixed source order, short-circuits after the SIM-ready query or the APN
configuration when those fail, and returns success iff the SIM-ready, APN
and context-activation transactions all succeed — the results of the
echo-disable and the context-deactivation transactions are both discarded
(neither stops the sequence). -/
theorem C7_attach_sequence (stub : AtStub) :
    (connectNetwork stub).1 =
        (stub cmdCPIN && stub cmdQICSGP && stub cmdQIACT) ∧
      (stub cmdCPIN = false →
        connectNetwork stub = (false, [cmdATE0, cmdCPIN])) ∧
      (stub cmdCPIN = true → stub cmdQICSGP = false →
        connectNetwork stub = (false, [cmdATE0, cmdCPIN, cmdQIDEACT, cmdQICSGP])) ∧
      (stub cmdCPIN = true → stub cmdQICSGP = true →
        (connectNetwork stub).2 =
          [cmdATE0, cmdCPIN, cmdQIDEACT, cmdQICSGP, cmdQIACT]) := by
  cases hc : stub cmdCPIN <;> cases hg : stub cmdQICSGP <;>
    cases ha : stub cmdQIACT <;> simp [connectNetwork, hc, hg, ha]

/-- C7 witness: all transactions succeed. -/
theorem C7_attach_sequence_witness :
    ((fun _ => true : AtStub) cmdCPIN = true ∧
        (fun _ => true : AtStub) cmdQICSGP = true) ∧
      (connectNetwork (fun _ => true)).2 =
        [cmdATE0, cmdCPIN, cmdQIDEACT, cmdQICSGP, cmdQIACT] :=
  ⟨⟨rfl, rfl⟩, (C7_attach_sequence (fun _ => true)).2.2.2 rfl rfl⟩

/-- C7 counterexample: the echo-disable transaction fails, yet the
sequence does not short-circuit with a failure result — it still returns
success, refuting the claim that the first failing transaction (other
than context deactivation) stops the sequence. -/
theorem C7_counterexample :
    (fun c => !(c == cmdATE0) : AtStub) cmdATE0 = false ∧
      (connectNetwork (fun c => !(c == cmdATE0))).1 = true := by
  constructor
  · decide
  · decide

/-- C6: `sendAT` writes the command plus line terminator exactly when the
command is non-empty, and its token wait returns success if and only if
the (non-empty) expected token occurs as a substring of the bytes the
channel delivers within the timeout window; being structural recursion on
the remaining ticks, the wait terminates for every stream. -/
theorem C6_sendAT (cmd expected : List Char) (stream : ByteStream)
    (timeout : Nat) (hne : expected ≠ []) :
    ((sendAT cmd expected stream timeout).1 = some (cmd ++ ['\r', '\n']) ↔
        cmd ≠ []) ∧
      ((sendAT cmd expected stream timeout).2 = true ↔
        expected <:+: collected stream timeout) := by
  constructor
  · rw [sendAT]
    by_cases hc : cmd = []
    · rw [hc]
      simp
    · have hlen : cmd.length ≠ 0 := by
        intro h0
        exact hc (List.length_eq_zero.mp h0)
      rw [if_pos hlen]
      simp [hc]
  · exact sendAT_go_top_iff expected stream timeout hne

/-- C6 witness: command "AT", token "OK" delivered at ticks 0 and 1. -/
theorem C6_sendAT_witness :
    ("OK".toList ≠ []) ∧
      ((sendAT "AT".toList "OK".toList
            (fun t => if t = 0 then some 'O' else if t = 1 then some 'K' else none)
            5).1 =
          some ("AT".toList ++ ['\r', '\n']) ↔ "AT".toList ≠ []) ∧
      ((sendAT "AT".toList "OK".toList
            (fun t => if t = 0 then some 'O' else if t = 1 then some 'K' else none)
            5).2 = true ↔
        "OK".toList <:+: collected
          (fun t => if t = 0 then some 'O' else if t = 1 then some 'K' else none) 5) :=
  ⟨by decide,
    (C6_sendAT "AT".toList "OK".toList _ 5 (by decide)).1,
    (C6_sendAT "AT".toList "OK".toList _ 5 (by decide)).2⟩

/-- C2: whenever a run reaches the streaming loop, the function returns
with no open storage handle whatever the loop's exit reason; the artifact
is removed on every outcome with `bytesDownloaded ≠ fileSize`; and the
checksum verifier is invoked if and only if `bytesDownloaded = fileSize`. -/
theorem C2_postloop (inp : DlInput) (sz : Int)
    (hurl : containsSub "CONNECT".toList inp.urlResp = true)
    (hsz : sizeWait inp.sizeLines = some (some sz))
    (hpos : 0 < sz)
    (hopen : inp.openOk = true)
    (hconn : connectWait inp.connectLines = true)
    (hmal : inp.mallocOk = true) :
    (downloadAndVerify inp).handleClosed = true ∧
      ((downloadAndVerify inp).bytesDownloaded ≠ sz.toNat →
        (downloadAndVerify inp).fileAfter = none) ∧
      ((downloadAndVerify inp).checksum = true ↔
        (downloadAndVerify inp).bytesDownloaded = sz.toNat) := by
  have hns : ¬ sz ≤ 0 := by omega
  simp only [downloadAndVerify, hurl, hsz, hopen, hconn, hmal, hns,
    Bool.not_true, Bool.false_eq_true, if_false]
  split
  · rename_i hb
    refine ⟨rfl, ?_, ?_⟩
    · intro hne
      exact absurd hb hne
    · exact ⟨fun _ => hb, fun _ => rfl⟩
  · rename_i hb
    refine ⟨rfl, fun _ => rfl, ?_⟩
    constructor
    · intro h
      exact absurd h (by simp)
    · intro h
      exact absurd h hb

/-- C2 witness: a run that reaches streaming and completes (size 2, both
bytes delivered at tick 0). -/
theorem C2_postloop_witness :
    (containsSub "CONNECT".toList
          (⟨"CONNECT".toList, ["+QHTTPGET: 0,200,2".toList], none, true,
            ["CONNECT".toList], true, fun t => if t = 0 then [7, 8] else [],
            fun _ => CHUNK_SIZE⟩ : DlInput).urlResp = true ∧
        sizeWait (⟨"CONNECT".toList, ["+QHTTPGET: 0,200,2".toList], none, true,
            ["CONNECT".toList], true, fun t => if t = 0 then [7, 8] else [],
            fun _ => CHUNK_SIZE⟩ : DlInput).sizeLines = some (some 2)) ∧
      ((downloadAndVerify
            ⟨"CONNECT".toList, ["+QHTTPGET: 0,200,2".toList], none, true,
              ["CONNECT".toList], true, fun t => if t = 0 then [7, 8] else [],
              fun _ => CHUNK_SIZE⟩).handleClosed = true ∧
        ((downloadAndVerify
              ⟨"CONNECT".toList, ["+QHTTPGET: 0,200,2".toList], none, true,
                ["CONNECT".toList], true, fun t => if t = 0 then [7, 8] else [],
                fun _ => CHUNK_SIZE⟩).bytesDownloaded ≠ (2 : Int).toNat →
          (downloadAndVerify
              ⟨"CONNECT".toList, ["+QHTTPGET: 0,200,2".toList], none, true,
                ["CONNECT".toList], true, fun t => if t = 0 then [7, 8] else [],
                fun _ => CHUNK_SIZE⟩).fileAfter = none) ∧
        ((downloadAndVerify
              ⟨"CONNECT".toList, ["+QHTTPGET: 0,200,2".toList], none, true,
                ["CONNECT".toList], true, fun t => if t = 0 then [7, 8] else [],
                fun _ => CHUNK_SIZE⟩).checksum = true ↔
          (downloadAndVerify
              ⟨"CONNECT".toList, ["+QHTTPGET: 0,200,2".toList], none, true,
                ["CONNECT".toList], true, fun t => if t = 0 then [7, 8] else [],
                fun _ => CHUNK_SIZE⟩).bytesDownloaded = (2 : Int).toNat)) :=
  ⟨⟨by decide, by decide⟩,
    C2_postloop _ 2 (by decide) (by decide) (by decide) (by decide) (by decide)
      (by decide)⟩

/-- C3 (amended): failures before the storage open (URL-send failure,
hard GET-status line, size timeout, non-positive declared size) leave the
file system untouched by the attempt; a storage-open failure leaves the
target file absent; but the no-CONNECT and allocation-failure aborts occur
after the target file has been created (truncated), and they only close
the handle — the freshly created empty file is left on storage, not
removed. -/
theorem C3_preloop_no_artifact (inp : DlInput) :
    ((downloadAndVerify inp).outcome = DlOutcome.urlFail ∨
        (downloadAndVerify inp).outcome = DlOutcome.getError ∨
        (downloadAndVerify inp).outcome = DlOutcome.sizeFail →
      (downloadAndVerify inp).fileAfter = inp.initialFile ∧
        (downloadAndVerify inp).created = false) ∧
      ((downloadAndVerify inp).outcome = DlOutcome.openFail →
        (downloadAndVerify inp).fileAfter = none ∧
          (downloadAndVerify inp).created = false) ∧
      ((downloadAndVerify inp).outcome = DlOutcome.noConnect ∨
          (downloadAndVerify inp).outcome = DlOutcome.mallocFail →
        (downloadAndVerify inp).created = true ∧
          (downloadAndVerify inp).fileAfter = some [] ∧
          (downloadAndVerify inp).handleClosed = true) := by
  simp only [downloadAndVerify]
  repeat' split
  all_goals simp

/-- C3 witness: a run aborted at the URL step leaves the pre-existing
artifact untouched and creates nothing. -/
theorem C3_preloop_no_artifact_witness :
    (downloadAndVerify
          ⟨[], [], some [1, 2, 3], true, [], true, fun _ => [],
            fun _ => CHUNK_SIZE⟩).outcome = DlOutcome.urlFail ∧
      ((downloadAndVerify
            ⟨[], [], some [1, 2, 3], true, [], true, fun _ => [],
              fun _ => CHUNK_SIZE⟩).fileAfter =
          (⟨[], [], some [1, 2, 3], true, [], true, fun _ => [],
            fun _ => CHUNK_SIZE⟩ : DlInput).initialFile ∧
        (downloadAndVerify
            ⟨[], [], some [1, 2, 3], true, [], true, fun _ => [],
              fun _ => CHUNK_SIZE⟩).created = false) :=
  ⟨by decide,
    (C3_preloop_no_artifact
        ⟨[], [], some [1, 2, 3], true, [], true, fun _ => [],
          fun _ => CHUNK_SIZE⟩).1 (Or.inl (by decide))⟩

/-- C3 counterexample: with a valid declared size and a successful open
but no CONNECT line, the claim "the target file is either removed or
never created by that attempt" fails — the attempt created the file and
left it (empty) on storage. -/
theorem C3_counterexample :
    (downloadAndVerify
          ⟨"CONNECT".toList, ["+QHTTPGET: 0,200,2".toList], none, true, [],
            true, fun _ => [], fun _ => CHUNK_SIZE⟩).outcome =
        DlOutcome.noConnect ∧
      (downloadAndVerify
          ⟨"CONNECT".toList, ["+QHTTPGET: 0,200,2".toList], none, true, [],
            true, fun _ => [], fun _ => CHUNK_SIZE⟩).created = true ∧
      (downloadAndVerify
          ⟨"CONNECT".toList, ["+QHTTPGET: 0,200,2".toList], none, true, [],
            true, fun _ => [], fun _ => CHUNK_SIZE⟩).fileAfter = some [] ∧
      ¬ ((downloadAndVerify
            ⟨"CONNECT".toList, ["+QHTTPGET: 0,200,2".toList], none, true, [],
              true, fun _ => [], fun _ => CHUNK_SIZE⟩).fileAfter = none ∨
        (downloadAndVerify
            ⟨"CONNECT".toList, ["+QHTTPGET: 0,200,2".toList], none, true, [],
              true, fun _ => [], fun _ => CHUNK_SIZE⟩).created = false) :=
  ⟨by decide, by decide, by decide, by decide⟩

/-- C4 (amended): for every declared size S > 0, if the run reaches the
streaming loop, every storage write persists in full, and the writer
completes with `bytesDownloaded = S`, then the stored artifact has length
exactly S and its contents are, in order, the first S bytes the transport
delivered.  (Without the full-write hypothesis this fails: the source
discards the result of `file.write`, see the counterexample.) -/
theorem C4_complete_fidelity (inp : DlInput) (sz : Int)
    (hurl : containsSub "CONNECT".toList inp.urlResp = true)
    (hsz : sizeWait inp.sizeLines = some (some sz))
    (hpos : 0 < sz)
    (hopen : inp.openOk = true)
    (hconn : connectWait inp.connectLines = true)
    (hmal : inp.mallocOk = true)
    (hw : FullW inp.writeCap) :
    (downloadAndVerify inp).outcome = DlOutcome.complete →
      ∃ d, (downloadAndVerify inp).fileAfter = some d ∧
        d.length = sz.toNat ∧
        ∃ T, d = (deliveredUpTo inp.arrivals T).take sz.toNat := by
  have hns : ¬ sz ≤ 0 := by omega
  simp only [downloadAndVerify, hurl, hsz, hopen, hconn, hmal, hns,
    Bool.not_true, Bool.false_eq_true, if_false]
  split
  · rename_i hb
    intro _
    obtain ⟨hfd, hlen⟩ := streamLoop_fileData inp.arrivals inp.writeCap sz.toNat
      (streamFuel sz.toNat) hw
    refine ⟨_, rfl, ?_, ?_⟩
    · rw [hlen, hb]
    · exact ⟨(streamLoop inp.arrivals inp.writeCap sz.toNat
        (streamFuel sz.toNat) initStream).t, by rw [hfd, hb]⟩
  · intro h
    exact absurd h (by simp)

/-- C4 witness: size 2, both bytes delivered at tick 0, full writes. -/
theorem C4_complete_fidelity_witness :
    (FullW (fun _ => CHUNK_SIZE) ∧
        (downloadAndVerify
            ⟨"CONNECT".toList, ["+QHTTPGET: 0,200,2".toList], none, true,
              ["CONNECT".toList], true, fun t => if t = 0 then [3, 4] else [],
              fun _ => CHUNK_SIZE⟩).outcome = DlOutcome.complete) ∧
      ∃ d, (downloadAndVerify
            ⟨"CONNECT".toList, ["+QHTTPGET: 0,200,2".toList], none, true,
              ["CONNECT".toList], true, fun t => if t = 0 then [3, 4] else [],
              fun _ => CHUNK_SIZE⟩).fileAfter = some d ∧
        d.length = (2 : Int).toNat ∧
        ∃ T, d = (deliveredUpTo (fun t => if t = 0 then [3, 4] else []) T).take
          (2 : Int).toNat :=
  ⟨⟨fun _ => Nat.le_refl _, by decide⟩,
    C4_complete_fidelity
      ⟨"CONNECT".toList, ["+QHTTPGET: 0,200,2".toList], none, true,
        ["CONNECT".toList], true, fun t => if t = 0 then [3, 4] else [],
        fun _ => CHUNK_SIZE⟩ 2 (by decide) (by decide) (by decide) (by decide)
      (by decide) (by decide) (fun _ => Nat.le_refl _) (by decide)⟩

/-- C4 counterexample: a write that persists nothing (its discarded result
would have said so) still lets the run report COMPLETE with
`bytesDownloaded = 2`, invoke the checksum verifier, and retain an
artifact of length 0 ≠ 2 — refuting the claim that a storage write
failure can never produce a COMPLETE outcome with a short artifact
retained. -/
theorem C4_counterexample :
    (downloadAndVerify
          ⟨"CONNECT".toList, ["+QHTTPGET: 0,200,2".toList], none, true,
            ["CONNECT".toList], true, fun t => if t = 0 then [7, 8] else [],
            fun _ => 0⟩).outcome = DlOutcome.complete ∧
      (downloadAndVerify
          ⟨"CONNECT".toList, ["+QHTTPGET: 0,200,2".toList], none, true,
            ["CONNECT".toList], true, fun t => if t = 0 then [7, 8] else [],
            fun _ => 0⟩).bytesDownloaded = (2 : Int).toNat ∧
      (downloadAndVerify
          ⟨"CONNECT".toList, ["+QHTTPGET: 0,200,2".toList], none, true,
            ["CONNECT".toList], true, fun t => if t = 0 then [7, 8] else [],
            fun _ => 0⟩).checksum = true ∧
      (downloadAndVerify
          ⟨"CONNECT".toList, ["+QHTTPGET: 0,200,2".toList], none, true,
            ["CONNECT".toList], true, fun t => if t = 0 then [7, 8] else [],
            fun _ => 0⟩).fileAfter = some [] ∧
      ([] : List Nat).length ≠ (2 : Int).toNat :=
  ⟨by decide, by decide, by decide, by decide, by decide⟩

/-- C8: during the size wait, a line matching the success pattern yields
the size parsed from the text after its last comma and ends the wait; any
other `+QHTTPGET: `-prefixed line is an immediate hard abort; a line
without that prefix is silently skipped; an empty window is a timeout; and
a run whose parsed size is zero or negative (or whose window closes with
no status line, or that sees a hard-error line) aborts the download. -/
theorem C8_size_wait_rules :
    (∀ l rest, succPat.isPrefixOf l = true →
      sizeWait (l :: rest) = some (some (atol (afterLastComma l)))) ∧
      (∀ l rest, getPre.isPrefixOf l = true → succPat.isPrefixOf l = false →
        sizeWait (l :: rest) = some none) ∧
      (∀ l rest, getPre.isPrefixOf l = false →
        sizeWait (l :: rest) = sizeWait rest) ∧
      sizeWait [] = none ∧
      (∀ inp, containsSub "CONNECT".toList inp.urlResp = true →
        sizeWait inp.sizeLines = none →
        (downloadAndVerify inp).outcome = DlOutcome.sizeFail) ∧
      (∀ inp, containsSub "CONNECT".toList inp.urlResp = true →
        sizeWait inp.sizeLines = some none →
        (downloadAndVerify inp).outcome = DlOutcome.getError) ∧
      (∀ inp sz, containsSub "CONNECT".toList inp.urlResp = true →
        sizeWait inp.sizeLines = some (some sz) → sz ≤ 0 →
        (downloadAndVerify inp).outcome = DlOutcome.sizeFail) := by
  refine ⟨?_, ?_, ?_, rfl, ?_, ?_, ?_⟩
  · intro l rest h
    rw [sizeWait]
    simp [h]
  · intro l rest h1 h2
    rw [sizeWait]
    simp [h1, h2]
  · intro l rest h
    have hsp : succPat.isPrefixOf l = false := by
      cases hc : succPat.isPrefixOf l with
      | false => rfl
      | true =>
        exfalso
        have hgs : getPre.isPrefixOf succPat = true := by decide
        have hb : getPre.isPrefixOf l = true := by
          rw [ List.isPrefixOf_iff_prefix] at hgs hc ⊢
          exact hgs.trans hc
        rw [hb] at h
        exact absurd h (by simp)
    rw [sizeWait]
    simp [h, hsp]
  · intro inp h1 h2
    simp only [downloadAndVerify, h1, h2, Bool.not_true, Bool.false_eq_true,
      if_false]
  · intro inp h1 h2
    simp only [downloadAndVerify, h1, h2, Bool.not_true, Bool.false_eq_true,
      if_false]
  · intro inp sz h1 h2 h3
    simp only [downloadAndVerify, h1, h2, h3, Bool.not_true, Bool.false_eq_true,
      if_false, if_true]

/-- C8 witness: a skipped junk line followed by a success line parsed to
51200, and a hard-error 404 status line. -/
theorem C8_size_wait_rules_witness :
    (succPat.isPrefixOf "+QHTTPGET: 0,200,51200".toList = true ∧
        sizeWait ["+QHTTPGET: 0,200,51200".toList] =
          some (some (atol (afterLastComma "+QHTTPGET: 0,200,51200".toList))) ∧
        atol (afterLastComma "+QHTTPGET: 0,200,51200".toList) = 51200) ∧
      (getPre.isPrefixOf "+QHTTPGET: 1,404".toList = true ∧
        succPat.isPrefixOf "+QHTTPGET: 1,404".toList = false ∧
        sizeWait ["+QHTTPGET: 1,404".toList] = some none) ∧
      (getPre.isPrefixOf "JUNK".toList = false ∧
        sizeWait ["JUNK".toList, "+QHTTPGET: 0,200,51200".toList] =
          sizeWait ["+QHTTPGET: 0,200,51200".toList]) :=
  ⟨⟨by decide, C8_size_wait_rules.1 _ _ (by decide), by decide⟩,
    ⟨by decide, by decide, C8_size_wait_rules.2.1 _ _ (by decide) (by decide)⟩,
    ⟨by decide, C8_size_wait_rules.2.2.1 _ _ (by decide)⟩⟩

/-- C9: every wait of the core is bounded by its window — the token wait
of `sendAT` and the fixed-duration drain of `waitForResponse` depend only
on the bytes delivered strictly before the deadline (so bytes after it
are never consulted and the wait cannot block), and the streaming loop,
run with its explicit fuel bound, always exits by one of its own two
conditions (declared size reached, or inactivity break) for every input
stream and every write behaviour. -/
theorem C9_bounded_waits :
    (∀ (expected : List Char) (s1 s2 : ByteStream) (timeout : Nat),
      (∀ k, k < timeout → s1 k = s2 k) →
      sendAT_go expected s1 0 [] timeout = sendAT_go expected s2 0 [] timeout) ∧
      (∀ (s1 s2 : ByteStream) (timeout : Nat),
        (∀ k, k < timeout → s1 k = s2 k) →
        waitForResponse s1 timeout = waitForResponse s2 timeout) ∧
      (∀ (arr : Arrivals) (wcap : WriteCap) (fs : Nat),
        fs ≤ (streamLoop arr wcap fs (streamFuel fs) initStream).bytesDownloaded ∨
          (streamLoop arr wcap fs (streamFuel fs) initStream).timedOut = true) := by
  refine ⟨?_, ?_, streamLoop_terminal⟩
  · intro e s1 s2 timeout h
    exact sendAT_go_window e s1 s2 timeout 0 []
      (fun k hk => by simpa using h k hk)
  · intro s1 s2 timeout h
    exact collected_window s1 s2 timeout h

/-- C9 witness: two streams that agree on the 3-tick window (one goes
silent forever, the other speaks at tick 3), and a 1-byte stream for the
loop bound. -/
theorem C9_bounded_waits_witness :
    (∀ k, k < 3 →
        (fun _ => none : ByteStream) k =
          (fun t => if t < 3 then none else some 'Z' : ByteStream) k) ∧
      sendAT_go "OK".toList (fun _ => none) 0 [] 3 =
        sendAT_go "OK".toList (fun t => if t < 3 then none else some 'Z') 0 [] 3 ∧
      waitForResponse (fun _ => none) 3 =
        waitForResponse (fun t => if t < 3 then none else some 'Z') 3 ∧
      (1 ≤ (streamLoop (fun _ => [5]) (fun _ => CHUNK_SIZE) 1 (streamFuel 1)
            initStream).bytesDownloaded ∨
        (streamLoop (fun _ => [5]) (fun _ => CHUNK_SIZE) 1 (streamFuel 1)
            initStream).timedOut = true) :=
  ⟨fun k hk => by simp [hk],
    C9_bounded_waits.1 "OK".toList _ _ 3 (fun k hk => by simp [hk]),
    C9_bounded_waits.2.1 _ _ 3 (fun k hk => by simp [hk]),
    C9_bounded_waits.2.2 (fun _ => [5]) (fun _ => CHUNK_SIZE) 1⟩

end GsmDl
